import Mathlib

/- Shallow embedding of src/whispers/fetchEarningsFromWhispers.mjs.
   JavaScript values that may be absent are modelled with a three-state
   wrapper, since the script distinguishes undefined and null only in
   template interpolation, while loose comparison with null and strict
   equality are modelled faithfully on the wrapper. -/

namespace Whispers

/-- A JavaScript field value: missing (undefined), null, or a present value. -/
inductive JVal (α : Type) : Type
  | undef : JVal α
  | null : JVal α
  | val : α → JVal α
deriving DecidableEq

/-- One feed record, with the fields the script reads (and the two growth
fields the example payload carries but the script never reads). Numbers are
modelled as rationals. -/
structure ReportRecord where
  epsDate : JVal String
  ticker : JVal String
  name : JVal String
  summary : JVal String
  subject : JVal String
  quarter : JVal String
  fileName : JVal String
  eps : JVal ℚ
  ewGrade : JVal String
  pwrRating : JVal String
  estimate : JVal ℚ
  whisper : JVal ℚ
  highEstimate : JVal ℚ
  lowEstimate : JVal ℚ
  revenue : JVal ℚ
  revenueEstimate : JVal ℚ
  earningsGrowth : JVal ℚ
  revenueGrowth : JVal ℚ
  earningsSurprise : JVal ℚ
  revenueSurprise : JVal ℚ
  prevEarningsGrowth : JVal ℚ
  prevRevenueGrowth : JVal ℚ
deriving DecidableEq

/-- An element the main loop iterates over. `for (const item of data)` yields
objects when data is an array, but single-character strings when data is a
JSON string (JS strings are iterable); property access on a character yields
undefined for every field. -/
inductive FeedItem : Type
  | record : ReportRecord → FeedItem
  | chr : Char → FeedItem
deriving DecidableEq

/-- JS property access `item.field` on a loop element: on a record it reads
the field, on a character it is undefined. -/
def FeedItem.get {α : Type} (f : ReportRecord → JVal α) : FeedItem → JVal α
  | .record r => f r
  | .chr _ => JVal.undef

/-- Template-literal interpolation of a possibly-absent string. -/
def jsStr : JVal String → String
  | .undef => "undefined"
  | .null => "null"
  | .val s => s

/-- JS truthiness of a string value: undefined, null and "" are falsy. -/
def jsTruthyS : JVal String → Bool
  | .undef => false
  | .null => false
  | .val s => !(s = "")

/-- `a || d` where a is a possibly-absent string and d a string default. -/
def jsOrStr (a : JVal String) (d : String) : String :=
  if jsTruthyS a then jsStr a else d

/-- `a || b` on two possibly-absent strings (used for `item.name || item.ticker`). -/
def jsOrV (a b : JVal String) : JVal String :=
  if jsTruthyS a then a else b

/-- Pad a digit string on the left with zeros up to length k. -/
def padZeros (s : String) (k : ℕ) : String :=
  (List.replicate (k - s.length) '0').asString ++ s

/-- Drop trailing zero digits. -/
def trimZeros (s : String) : String :=
  ((s.toList.reverse.dropWhile (fun c => c == '0')).reverse).asString

/-- Smallest exponent k ≤ 40 with d dividing 10^k, when one exists. -/
def pow10Exp (d : ℕ) : Option ℕ :=
  (List.range 41).find? (fun k => 10 ^ k % d == 0)

/-- Decimal rendering of a rational, abstracting JS number-to-string (exact
for the finite decimal values that occur; never relevant to any claim). -/
def numToStr (q : ℚ) : String :=
  let sign := if q < 0 then "-" else ""
  let n := q.num.natAbs
  let d := q.den
  if d = 1 then sign ++ toString n
  else
    match pow10Exp d with
    | some k =>
        let scaled := n * (10 ^ k / d)
        sign ++ toString (scaled / 10 ^ k) ++ "." ++
          trimZeros (padZeros (toString (scaled % 10 ^ k)) k)
    | none => sign ++ toString n ++ "/" ++ toString d

/-- Template-literal interpolation of a possibly-absent number. -/
def jsNum : JVal ℚ → String
  | .undef => "undefined"
  | .null => "null"
  | .val q => numToStr q

/-- The scaled digits of ECMA Number.prototype.toFixed: ⌊|q|·10^f + 1/2⌋,
the magnitude rounded to the closest multiple of 10^(-f), ties to the
larger. Computed by natural division on numerator and denominator; the
lemma jsRound_eq_floor below proves it equal to the floor expression. -/
def jsRound (q : ℚ) (f : ℕ) : ℕ :=
  (q.num.natAbs * 10 ^ f * 2 + q.den) / (2 * q.den)

/-- ECMA Number.prototype.toFixed on a rational: the sign is taken first,
then the magnitude is scaled by 10^f and rounded, ties to the larger. -/
def jsToFixed (q : ℚ) (f : ℕ) : String :=
  let sign := if q < 0 then "-" else ""
  let m := jsRound q f
  if f = 0 then sign ++ toString m
  else sign ++ toString (m / 10 ^ f) ++ "." ++ padZeros (toString (m % 10 ^ f)) f

/-- Does hay start with pat? (character-exact, case-sensitive) -/
def listStarts : List Char → List Char → Bool
  | _, [] => true
  | [], _ :: _ => false
  | a :: as, b :: bs => decide (a = b) && listStarts as bs

/-- Does hay contain pat as a contiguous run? (JS String.prototype.includes) -/
def listHas (pat : List Char) : List Char → Bool
  | [] => listStarts [] pat
  | c :: t => listStarts (c :: t) pat || listHas pat t

/-- JS `s.includes(pat)`: case-sensitive substring containment. -/
def strIncludes (s pat : String) : Bool :=
  listHas pat.toList s.toList

/-- The classification marker computed from item.subject with optional
chaining: Beat markers checked first, then Missed markers, else neutral;
an absent subject short-circuits every check to undefined (falsy). -/
def statusEmoji : JVal String → String
  | .val s =>
      if strIncludes s "Beat Expectations" || strIncludes s "Beat Consensus Estimates" then "🟢"
      else if strIncludes s "Missed Expectations" || strIncludes s "Missed Consensus Estimates" then "🔴"
      else "🔵"
  | _ => "🔵"

/-- The script's fmtMoney: `m == null` (loose, so undefined or null) gives
"N/A"; m > 999 gives billions, m >= 1 millions, otherwise thousands, each
with two decimals. -/
def fmtMoney : JVal ℚ → String
  | .undef => "N/A"
  | .null => "N/A"
  | .val q =>
      if q > 999 then "$" ++ jsToFixed (q / 1000) 2 ++ "B"
      else if q ≥ 1 then "$" ++ jsToFixed q 2 ++ "M"
      else "$" ++ jsToFixed (q * 1000) 2 ++ "K"

/-- A JSON value, as JSON.parse would produce it. -/
inductive J : Type
  | null : J
  | bool : Bool → J
  | num : ℚ → J
  | str : String → J
  | arr : List J → J
  | obj : List (String × J) → J

/-- The body of loadState's try block: read the state file, then parse it;
either step may fail. -/
def loadStateAttempt (readRes : Except String String)
    (parse : String → Except String J) : Except String J :=
  match readRes with
  | Except.error e => Except.error e
  | Except.ok s => parse s

/-- loadState: JSON.parse(readFile(...)) with a catch-all returning the
empty array. `readRes` is the outcome of the file read (error on a missing
or unreadable file); `parse` is the outcome of JSON.parse on the contents. -/
def loadState (readRes : Except String String)
    (parse : String → Except String J) : Except String J :=
  match loadStateAttempt readRes parse with
  | Except.ok j => Except.ok j
  | Except.error _ => Except.ok (J.arr [])

/-- Replace every occurrence of pat (leftmost, non-overlapping, scanning
resumes after each replacement) by rep, as the /g literal regex replace
does; fuel is the input length, enough since a match consumes pat. -/
def replaceAllAux (pat rep : List Char) : ℕ → List Char → List Char
  | 0, cs => cs
  | _ + 1, [] => []
  | fuel + 1, c :: cs =>
    if listStarts (c :: cs) pat && !pat.isEmpty then
      rep ++ replaceAllAux pat rep fuel ((c :: cs).drop pat.length)
    else c :: replaceAllAux pat rep fuel cs

/-- String form of replaceAllAux, modelling s.replace(/pat/g, rep) for a
literal pattern. -/
def replaceAllStr (s pat rep : String) : String :=
  (replaceAllAux pat.toList rep.toList s.toList.length s.toList).asString

/-- Try to match the anchor regex at the head of the input: literal "<a ",
one or more non-'>' characters, '>', one or more non-'<' characters
(captured), then "</a>". Returns the capture and the rest after the match.
The character classes exclude the closing characters, so the greedy runs
need no backtracking. -/
def matchAnchor : List Char → Option (List Char × List Char)
  | '<' :: 'a' :: ' ' :: rest =>
    let attrs := rest.takeWhile (fun c => c != '>')
    if attrs.isEmpty then none
    else
      match rest.drop attrs.length with
      | '>' :: rest2 =>
        let txt := rest2.takeWhile (fun c => c != '<')
        if txt.isEmpty then none
        else
          match rest2.drop txt.length with
          | '<' :: '/' :: 'a' :: '>' :: rest3 => some (txt, rest3)
          | _ => none
      | _ => none
  | _ => none

/-- Replace every anchor match by the bracketed capture, scanning left to
right and resuming after each replacement (the /g regex replace); fuel is
the input length, enough since a match consumes at least one character. -/
def anchorReplAux : ℕ → List Char → List Char
  | 0, cs => cs
  | _ + 1, [] => []
  | fuel + 1, c :: cs =>
    match matchAnchor (c :: cs) with
    | some (txt, rest) => '[' :: (txt ++ ']' :: anchorReplAux fuel rest)
    | none => c :: anchorReplAux fuel cs

/-- String form of anchorReplAux: replace(/<a [^>]+>([^<]+)<\/a>/g, "[$1]"). -/
def anchorRepl (s : String) : String :=
  (anchorReplAux s.toList.length s.toList).asString

/-- The run environment the embed construction observes besides the record:
the current time (setTimestamp) and the locale- and timezone-dependent
rendering new Date(epsDate).toLocaleString() of the Earnings Date field. -/
structure Env where
  now : ℕ
  dateLoc : JVal String → String

/-- One labeled field of the outgoing embed. -/
structure EmbedField where
  name : String
  value : String
  inline : Bool
deriving DecidableEq

/-- The notification payload the script builds per item (EmbedBuilder):
color, title, url, author name, twelve fields, description, footer,
timestamp. -/
structure Embed where
  color : ℕ
  title : String
  url : String
  authorName : JVal String
  fields : List EmbedField
  description : String
  footer : String
  timestamp : ℕ
deriving DecidableEq

/-- The embed the loop body constructs for one item, translated field by
field from the EmbedBuilder chain. Construction is modelled as total: the
builder's validation failures (it throws on payloads no sink accepts, such
as an undefined author name) are modelled as the send of that payload
failing, i.e. a false send-oracle outcome at that attempt. -/
def formatEmbed (env : Env) (item : FeedItem) : Embed where
  color := 0x1abc9c
  title := statusEmoji (item.get ReportRecord.subject) ++ " "
    ++ jsStr (item.get ReportRecord.ticker) ++ " — "
    ++ jsStr (item.get ReportRecord.subject)
  url := "https://www.earningswhispers.com/epsdetails/"
    ++ jsStr (item.get ReportRecord.ticker)
  authorName := jsOrV (item.get ReportRecord.name) (item.get ReportRecord.ticker)
  fields :=
    [⟨"Earnings Date", env.dateLoc (item.get ReportRecord.epsDate), true⟩,
     ⟨"EPS (est/whisp)",
       jsNum (item.get ReportRecord.eps) ++ " (Estimate: "
         ++ jsNum (item.get ReportRecord.estimate) ++ " / Whisper: "
         ++ jsNum (item.get ReportRecord.whisper) ++ ")", true⟩,
     ⟨"Revenue", fmtMoney (item.get ReportRecord.revenue), true⟩,
     ⟨"Revenue Estimate", fmtMoney (item.get ReportRecord.revenueEstimate), true⟩,
     ⟨"Earnings Surprise %",
       match item.get ReportRecord.earningsSurprise with
       | JVal.val x => "EPS " ++ jsToFixed (x * 100) 2 ++ "%"
       | _ => "N/A", true⟩,
     ⟨"Revenue Surprise %",
       match item.get ReportRecord.revenueSurprise with
       | JVal.val x => jsToFixed (x * 100) 2 ++ "%"
       | _ => "N/A", true⟩,
     ⟨"Previous Earnings Growth",
       match item.get ReportRecord.prevEarningsGrowth with
       | JVal.val x => jsToFixed (x * 100) 1 ++ "%"
       | _ => "N/A", true⟩,
     ⟨"Previous Revenue Growth",
       match item.get ReportRecord.prevRevenueGrowth with
       | JVal.val x => jsToFixed (x * 100) 1 ++ "%"
       | _ => "N/A", true⟩,
     ⟨"High / Low Est.",
       jsNum (item.get ReportRecord.highEstimate) ++ " / "
         ++ jsNum (item.get ReportRecord.lowEstimate), true⟩,
     ⟨"Earnings Whispers Grade", jsOrStr (item.get ReportRecord.ewGrade) "N/A", true⟩,
     ⟨"Power Rating", jsOrStr (item.get ReportRecord.pwrRating) "N/A", true⟩,
     ⟨"Conference Call",
       if jsTruthyS (item.get ReportRecord.fileName) then
         "[Link](https://app.webinar.net/" ++ jsStr (item.get ReportRecord.fileName) ++ ")"
       else "N/A", true⟩]
  description := anchorRepl (replaceAllStr
    (jsOrStr (item.get ReportRecord.summary) "") "<br />" "\n")
  footer := "Source: Earnings Whispers"
  timestamp := env.now

/-- A fixed environment: time 0, every date rendering "Invalid Date". -/
def env0 : Env where
  now := 0
  dateLoc := fun _ => "Invalid Date"

/-- A later environment with the same locale rendering as env0. -/
def env1 : Env where
  now := 1
  dateLoc := fun _ => "Invalid Date"

/-- A record whose every field is JSON null. -/
def crec : ReportRecord where
  epsDate := JVal.null
  ticker := JVal.null
  name := JVal.null
  summary := JVal.null
  subject := JVal.null
  quarter := JVal.null
  fileName := JVal.null
  eps := JVal.null
  ewGrade := JVal.null
  pwrRating := JVal.null
  estimate := JVal.null
  whisper := JVal.null
  highEstimate := JVal.null
  lowEstimate := JVal.null
  revenue := JVal.null
  revenueEstimate := JVal.null
  earningsGrowth := JVal.null
  revenueGrowth := JVal.null
  earningsSurprise := JVal.null
  revenueSurprise := JVal.null
  prevEarningsGrowth := JVal.null
  prevRevenueGrowth := JVal.null

/-- The dedup comparison of the loop:
e.epsDate === item.epsDate && e.ticker === item.ticker. Strict equality on
the two possibly-absent strings is equality of the JVal wrappers
(undefined === undefined and null === null hold, undefined === null does
not). -/
def keyMatches (e item : FeedItem) : Bool :=
  decide (e.get ReportRecord.epsDate = item.get ReportRecord.epsDate)
    && decide (e.get ReportRecord.ticker = item.get ReportRecord.ticker)

/-- What one run of the merge-and-send loop produces: the final in-memory
state, the items that reached the loop body past the dedup check (each
such item is formatted and its delivery attempted), and the successfully
delivered payloads in order. -/
structure RunOut where
  finalState : List FeedItem
  attempted : List FeedItem
  sentEmbeds : List Embed

/-- The merge-and-send loop over the fetched items. sendOk k tells whether
the k-th webhook.send attempt succeeds; envAt k is the environment at that
attempt. A record whose key matches the current state is skipped before
any formatting; otherwise the embed is built and sent; on success the item
is pushed onto the state and the loop continues; a send failure throws,
ending the loop. -/
def runLoop (sendOk : ℕ → Bool) (envAt : ℕ → Env) :
    List FeedItem → List FeedItem → ℕ → RunOut
  | st, [], _ => ⟨st, [], []⟩
  | st, item :: rest, k =>
    if st.any (fun e => keyMatches e item) then
      runLoop sendOk envAt st rest k
    else
      let embed := formatEmbed (envAt k) item
      if sendOk k then
        let out := runLoop sendOk envAt (st ++ [item]) rest (k + 1)
        ⟨out.finalState, item :: out.attempted, embed :: out.sentEmbeds⟩
      else ⟨st, [item], []⟩

/-- The observable output events of one run: each successful delivery, and
each state write. -/
inductive Event : Type
  | send : Embed → Event
  | save : List FeedItem → Event

/-- Is the event a delivery? -/
def Event.isSend : Event → Bool
  | .send _ => true
  | .save _ => false

/-- Is the event a state write? -/
def Event.isSave : Event → Bool
  | .send _ => false
  | .save _ => true

/-- The state payload of a save event. -/
def saveOf : Event → Option (List FeedItem)
  | .send _ => none
  | .save st => some st

/-- The state on disk after a run: the payload of the last write. -/
def persisted (tr : List Event) : Option (List FeedItem) :=
  (tr.filterMap saveOf).getLast?

/-- The parsed body of the data request, as the loop sees it. -/
inductive FeedData : Type
  | arr : List FeedItem → FeedData
  | str : String → FeedData
  | notIterable : FeedData

/-- JS for...of over the response body: an array yields its elements; a
string is iterable and yields its characters one by one; any other value
(object, number, boolean, null) throws a TypeError. -/
def iterateData : FeedData → Option (List FeedItem)
  | .arr items => some items
  | .str s => some (s.toList.map FeedItem.chr)
  | .notIterable => none

/-- Outcome of the warm-up plus data requests: either some step threw, or a
body was obtained. -/
inductive FetchOutcome : Type
  | fail : FetchOutcome
  | ok : FeedData → FetchOutcome

/-- One run of main past startup, as its event trace: on a fetch failure or
a non-iterable body the catch block swallows the error and the finally
block writes the loaded state unchanged; otherwise the loop runs (a send
failure ends it via the same catch) and the finally block writes the final
state. Exactly one write happens, at the end. -/
def main (state₀ : List FeedItem) (fetch : FetchOutcome)
    (sendOk : ℕ → Bool) (envAt : ℕ → Env) : List Event :=
  match fetch with
  | .fail => [Event.save state₀]
  | .ok d =>
    match iterateData d with
    | none => [Event.save state₀]
    | some items =>
      let out := runLoop sendOk envAt state₀ items 0
      out.sentEmbeds.map Event.send ++ [Event.save out.finalState]

/-- The new items of a fetch relative to a state: those whose key matches
no state entry, in feed order. -/
def newOf (st items : List FeedItem) : List FeedItem :=
  items.filter (fun i => !(st.any (fun e => keyMatches e i)))

/-- Number of consecutive successful sends starting at attempt k, capped at
n: the length of the delivered prefix when n new items remain. -/
def okRun (sendOk : ℕ → Bool) : ℕ → ℕ → ℕ
  | _, 0 => 0
  | k, n + 1 => if sendOk k then okRun sendOk (k + 1) n + 1 else 0

/-- A stored record with the HCA composite key. -/
def recA : ReportRecord :=
  { crec with
    epsDate := JVal.val "2025-07-25T07:30:00"
    ticker := JVal.val "HCA"
    name := JVal.val "HCA Healthcare, Inc."
    eps := JVal.val (684 / 100) }

/-- A fetched record with the same composite key as recA but every other
field different. -/
def recA2 : ReportRecord :=
  { crec with
    epsDate := JVal.val "2025-07-25T07:30:00"
    ticker := JVal.val "HCA"
    name := JVal.val "Another Name"
    subject := JVal.val "HCA Healthcare Beat Expectations"
    eps := JVal.val 7 }

/-- A fetched record with a fresh composite key. -/
def recB : ReportRecord :=
  { crec with
    epsDate := JVal.val "2025-07-27T12:50:00"
    ticker := JVal.val "CNC"
    name := JVal.val "Centene Corporation"
    subject := JVal.val "Centene Missed Consensus Estimates" }

/-- A send oracle whose first attempt succeeds and whose second fails. -/
def sendOkW : ℕ → Bool := fun k => decide (k = 0)

/-- A constant environment per attempt. -/
def envAtW : ℕ → Env := fun _ => env0

/-- The natural-division computation in jsRound is the rounding
⌊|q|·10^f + 1/2⌋ of ECMA toFixed. -/
theorem jsRound_eq_floor (q : ℚ) (f : ℕ) :
    jsRound q f = (Int.floor (|q| * (10 : ℚ) ^ f + 1 / 2)).toNat := by
  have hd0 : (0 : ℚ) < (q.den : ℚ) := by
    exact_mod_cast q.den_pos
  have h2 : (q.den : ℚ) ≠ 0 := ne_of_gt hd0
  have habs : |q| = (q.num.natAbs : ℚ) / (q.den : ℚ) := by
    conv_lhs => rw [← Rat.num_div_den q]
    rw [abs_div, Int.cast_natAbs, Int.cast_abs, abs_of_nonneg (le_of_lt hd0)]
  have key : |q| * (10 : ℚ) ^ f + 1 / 2
      = ((q.num.natAbs * 10 ^ f * 2 + q.den : ℕ) : ℚ) / ((2 * q.den : ℕ) : ℚ) := by
    rw [habs, div_mul_eq_mul_div, div_add_div _ _ h2 two_ne_zero]
    push_cast
    ring
  rw [jsRound, key, Int.floor_toNat, Nat.floor_div_nat, Nat.floor_natCast]

/-- listStarts hay pat holds exactly when pat is an initial run of hay. -/
theorem listStarts_iff (pat : List Char) :
    ∀ hay : List Char, listStarts hay pat = true ↔ ∃ t, hay = pat ++ t := by
  induction pat with
  | nil => intro hay; simp [listStarts]
  | cons b bs ih =>
    intro hay
    cases hay with
    | nil => simp [listStarts]
    | cons a as =>
      simp [listStarts, ih as, List.cons_eq_cons]

/-- listHas pat hay holds exactly when pat occurs as a contiguous run in hay. -/
theorem listHas_iff (pat : List Char) :
    ∀ hay : List Char, listHas pat hay = true ↔ ∃ l r, hay = l ++ pat ++ r := by
  intro hay
  induction hay with
  | nil =>
    cases pat with
    | nil => simp [listHas, listStarts]
    | cons b bs => simp [listHas, listStarts]
  | cons c t ih =>
    simp only [listHas, Bool.or_eq_true, ih, listStarts_iff]
    constructor
    · rintro (⟨r, hr⟩ | ⟨l, r, hr⟩)
      · exact ⟨[], r, by simpa using hr⟩
      · exact ⟨c :: l, r, by simp [hr]⟩
    · rintro ⟨l, r, hr⟩
      cases l with
      | nil => exact Or.inl ⟨r, by simpa using hr⟩
      | cons d l2 =>
        right
        rcases List.cons_eq_cons.mp hr with ⟨-, h2⟩
        exact ⟨l2, r, h2⟩

/-- strIncludes is exactly case-sensitive substring containment. -/
theorem strIncludes_iff (s pat : String) :
    strIncludes s pat = true ↔ ∃ l r, s.toList = l ++ pat.toList ++ r :=
  listHas_iff pat.toList s.toList

/-- C3: fmtMoney gives "N/A" on null or missing input; above 999 it formats
billions (value/1000, two decimals, suffix B); between 1 and 999 millions
(two decimals, suffix M); below 1 thousands (value*1000, two decimals,
suffix K); and the boundary values evaluate as the spec states. -/
theorem c3_fmtMoney :
    fmtMoney JVal.null = "N/A" ∧ fmtMoney JVal.undef = "N/A"
    ∧ (∀ q : ℚ, 999 < q → fmtMoney (JVal.val q) = "$" ++ jsToFixed (q / 1000) 2 ++ "B")
    ∧ (∀ q : ℚ, 1 ≤ q → q ≤ 999 → fmtMoney (JVal.val q) = "$" ++ jsToFixed q 2 ++ "M")
    ∧ (∀ q : ℚ, q < 1 → fmtMoney (JVal.val q) = "$" ++ jsToFixed (q * 1000) 2 ++ "K")
    ∧ fmtMoney (JVal.val 999) = "$999.00M"
    ∧ fmtMoney (JVal.val 1000) = "$1.00B"
    ∧ fmtMoney (JVal.val (1 / 2)) = "$500.00K" := by
  have hB : ∀ q : ℚ, 999 < q → fmtMoney (JVal.val q) = "$" ++ jsToFixed (q / 1000) 2 ++ "B" := by
    intro q hq; simp [fmtMoney, hq]
  have hM : ∀ q : ℚ, 1 ≤ q → q ≤ 999 → fmtMoney (JVal.val q) = "$" ++ jsToFixed q 2 ++ "M" := by
    intro q h1 h2
    have hn : ¬(999 < q) := not_lt.mpr h2
    simp [fmtMoney, hn, h1]
  have hK : ∀ q : ℚ, q < 1 → fmtMoney (JVal.val q) = "$" ++ jsToFixed (q * 1000) 2 ++ "K" := by
    intro q hq
    have hn : ¬(999 < q) := not_lt.mpr (by linarith)
    have hn2 : ¬(1 ≤ q) := not_le.mpr hq
    simp [fmtMoney, hn, hn2]
  refine ⟨rfl, rfl, hB, hM, hK, ?_, ?_, ?_⟩
  · rw [hM 999 (by norm_num) (by norm_num)]
    decide
  · rw [hB 1000 (by norm_num), show (1000 : ℚ) / 1000 = 1 by norm_num]
    decide
  · rw [hK (1 / 2) (by norm_num), show (1 / 2 : ℚ) * 1000 = 500 by norm_num]
    decide

/-- C3 witness: the three guarded branch descriptions applied at concrete
inputs away from the boundary. -/
theorem c3_fmtMoney_witness :
    fmtMoney (JVal.val 2000) = "$" ++ jsToFixed ((2000 : ℚ) / 1000) 2 ++ "B"
    ∧ fmtMoney (JVal.val 5) = "$" ++ jsToFixed (5 : ℚ) 2 ++ "M"
    ∧ fmtMoney (JVal.val (1 / 4)) = "$" ++ jsToFixed ((1 / 4 : ℚ) * 1000) 2 ++ "K" :=
  ⟨c3_fmtMoney.2.2.1 2000 (by norm_num),
   c3_fmtMoney.2.2.2.1 5 (by norm_num) (by norm_num),
   c3_fmtMoney.2.2.2.2.1 (1 / 4) (by norm_num)⟩

/-- C4: classification is a case-sensitive substring match on the subject,
Beat markers checked before Missed markers: any Beat marker gives the
positive emoji even when a Missed marker is also present; a Missed marker
with no Beat marker gives the negative emoji; no marker gives neutral. -/
theorem c4_classification (s : String) :
    ((∃ l r, s.toList = l ++ "Beat Expectations".toList ++ r)
        ∨ (∃ l r, s.toList = l ++ "Beat Consensus Estimates".toList ++ r) →
      statusEmoji (JVal.val s) = "🟢")
    ∧ (((∃ l r, s.toList = l ++ "Missed Expectations".toList ++ r)
        ∨ (∃ l r, s.toList = l ++ "Missed Consensus Estimates".toList ++ r)) →
      ¬((∃ l r, s.toList = l ++ "Beat Expectations".toList ++ r)
        ∨ (∃ l r, s.toList = l ++ "Beat Consensus Estimates".toList ++ r)) →
      statusEmoji (JVal.val s) = "🔴")
    ∧ (¬((∃ l r, s.toList = l ++ "Beat Expectations".toList ++ r)
        ∨ (∃ l r, s.toList = l ++ "Beat Consensus Estimates".toList ++ r)) →
      ¬((∃ l r, s.toList = l ++ "Missed Expectations".toList ++ r)
        ∨ (∃ l r, s.toList = l ++ "Missed Consensus Estimates".toList ++ r)) →
      statusEmoji (JVal.val s) = "🔵") := by
  refine ⟨?_, ?_, ?_⟩
  · intro h
    have hb : (strIncludes s "Beat Expectations" || strIncludes s "Beat Consensus Estimates") = true := by
      rcases h with h | h
      · simp [Bool.or_eq_true]; exact Or.inl ((strIncludes_iff s _).mpr h)
      · simp [Bool.or_eq_true]; exact Or.inr ((strIncludes_iff s _).mpr h)
    simp [statusEmoji, hb]
  · intro hm hnb
    have hb1 : strIncludes s "Beat Expectations" = false := by
      cases hx : strIncludes s "Beat Expectations"
      · rfl
      · exact absurd (Or.inl ((strIncludes_iff s _).mp hx)) hnb
    have hb2 : strIncludes s "Beat Consensus Estimates" = false := by
      cases hx : strIncludes s "Beat Consensus Estimates"
      · rfl
      · exact absurd (Or.inr ((strIncludes_iff s _).mp hx)) hnb
    have hmt : (strIncludes s "Missed Expectations" || strIncludes s "Missed Consensus Estimates") = true := by
      rcases hm with h | h
      · simp [Bool.or_eq_true]; exact Or.inl ((strIncludes_iff s _).mpr h)
      · simp [Bool.or_eq_true]; exact Or.inr ((strIncludes_iff s _).mpr h)
    simp [statusEmoji, hb1, hb2, hmt]
  · intro hnb hnm
    have hb1 : strIncludes s "Beat Expectations" = false := by
      cases hx : strIncludes s "Beat Expectations"
      · rfl
      · exact absurd (Or.inl ((strIncludes_iff s _).mp hx)) hnb
    have hb2 : strIncludes s "Beat Consensus Estimates" = false := by
      cases hx : strIncludes s "Beat Consensus Estimates"
      · rfl
      · exact absurd (Or.inr ((strIncludes_iff s _).mp hx)) hnb
    have hm1 : strIncludes s "Missed Expectations" = false := by
      cases hx : strIncludes s "Missed Expectations"
      · rfl
      · exact absurd (Or.inl ((strIncludes_iff s _).mp hx)) hnm
    have hm2 : strIncludes s "Missed Consensus Estimates" = false := by
      cases hx : strIncludes s "Missed Consensus Estimates"
      · rfl
      · exact absurd (Or.inr ((strIncludes_iff s _).mp hx)) hnm
    simp [statusEmoji, hb1, hb2, hm1, hm2]

/-- C4 witness: a subject holding both a Beat and a Missed marker is
positive; a Missed-only subject is negative; a marker-free subject is
neutral. -/
theorem c4_classification_witness :
    statusEmoji (JVal.val "X Beat Expectations yet Missed Expectations") = "🟢"
    ∧ statusEmoji (JVal.val "Centene Missed Consensus Estimates") = "🔴"
    ∧ statusEmoji (JVal.val "Quarterly Report") = "🔵" := by
  refine ⟨?_, ?_, ?_⟩
  · exact (c4_classification _).1
      (Or.inl ⟨"X ".toList, " yet Missed Expectations".toList, by decide⟩)
  · refine (c4_classification _).2.1
      (Or.inr ⟨"Centene ".toList, [], by decide⟩) ?_
    rintro (h | h)
    · exact absurd ((strIncludes_iff _ _).mpr h) (by decide)
    · exact absurd ((strIncludes_iff _ _).mpr h) (by decide)
  · refine (c4_classification _).2.2 ?_ ?_
    · rintro (h | h)
      · exact absurd ((strIncludes_iff _ _).mpr h) (by decide)
      · exact absurd ((strIncludes_iff _ _).mpr h) (by decide)
    · rintro (h | h)
      · exact absurd ((strIncludes_iff _ _).mpr h) (by decide)
      · exact absurd ((strIncludes_iff _ _).mpr h) (by decide)

/-- C10: a missing or null subject is classified neutral; the optional
chaining makes every marker check undefined (falsy), so neither the Beat
nor the Missed branch is taken and classification cannot fail. -/
theorem c10_absent_subject (s : JVal String)
    (h : s = JVal.undef ∨ s = JVal.null) : statusEmoji s = "🔵" := by
  rcases h with h | h <;> subst h <;> rfl

/-- C10 witness: both absent-subject shapes evaluate to neutral. -/
theorem c10_absent_subject_witness :
    statusEmoji (JVal.undef : JVal String) = "🔵"
    ∧ statusEmoji (JVal.null : JVal String) = "🔵" :=
  ⟨c10_absent_subject JVal.undef (Or.inl rfl),
   c10_absent_subject JVal.null (Or.inr rfl)⟩

/-- C5: loadState never surfaces an error: it always returns ok, and when
the read fails or the contents fail to parse it returns the empty array. -/
theorem c5_loadState (readRes : Except String String)
    (parse : String → Except String J) :
    (∃ j, loadState readRes parse = Except.ok j)
    ∧ (∀ e, readRes = Except.error e → loadState readRes parse = Except.ok (J.arr []))
    ∧ (∀ s e, readRes = Except.ok s → parse s = Except.error e →
        loadState readRes parse = Except.ok (J.arr [])) := by
  refine ⟨?_, ?_, ?_⟩
  · cases hr : readRes with
    | error e => exact ⟨J.arr [], by simp [loadState, loadStateAttempt, hr]⟩
    | ok s =>
      cases hp : parse s with
      | error e => exact ⟨J.arr [], by simp [loadState, loadStateAttempt, hr, hp]⟩
      | ok j => exact ⟨j, by simp [loadState, loadStateAttempt, hr, hp]⟩
  · intro e hr; simp [loadState, loadStateAttempt, hr]
  · intro s e hr hp; simp [loadState, loadStateAttempt, hr, hp]

/-- C5 witness: a missing file and an unparseable file both load as the
empty array. -/
theorem c5_loadState_witness :
    loadState (Except.error "ENOENT") (fun _ => Except.error "bad token") = Except.ok (J.arr [])
    ∧ loadState (Except.ok "not json") (fun _ => Except.error "bad token") = Except.ok (J.arr []) :=
  ⟨(c5_loadState (Except.error "ENOENT") (fun _ => Except.error "bad token")).2.1 "ENOENT" rfl,
   (c5_loadState (Except.ok "not json") (fun _ => Except.error "bad token")).2.2 "not json" "bad token" rfl rfl⟩

/-- C8 counterexample: for the record whose fields are all null, the
"EPS (est/whisp)" field interpolates the raw values, rendering
"null (Estimate: null / Whisper: null)", not "N/A" — so a null eps (and
likewise estimate, whisper, highEstimate, lowEstimate) is not rendered as
"N/A", refuting the claim for those fields. -/
theorem c8_counterexample :
    (formatEmbed env0 (FeedItem.record crec)).fields.get? 1
      = some ⟨"EPS (est/whisp)", "null (Estimate: null / Whisper: null)", true⟩
    ∧ (formatEmbed env0 (FeedItem.record crec)).fields.get? 8
      = some ⟨"High / Low Est.", "null / null", true⟩
    ∧ "null (Estimate: null / Whisper: null)" ≠ "N/A"
    ∧ "null / null" ≠ "N/A" := by
  refine ⟨rfl, rfl, by decide, by decide⟩

/-- C8 amended: a missing or null optional field renders "N/A" for the
fields the script defaults — revenue, revenueEstimate, the four percentage
fields, the two rating grades, and the conference-call link — while eps,
estimate, whisper, highEstimate and lowEstimate are interpolated directly
and render "null"/"undefined" instead. -/
theorem c8_optional_na (env : Env) (item : FeedItem) :
    (item.get ReportRecord.revenue = JVal.null ∨ item.get ReportRecord.revenue = JVal.undef →
      (formatEmbed env item).fields.get? 2 = some ⟨"Revenue", "N/A", true⟩)
    ∧ (item.get ReportRecord.revenueEstimate = JVal.null ∨ item.get ReportRecord.revenueEstimate = JVal.undef →
      (formatEmbed env item).fields.get? 3 = some ⟨"Revenue Estimate", "N/A", true⟩)
    ∧ (item.get ReportRecord.earningsSurprise = JVal.null ∨ item.get ReportRecord.earningsSurprise = JVal.undef →
      (formatEmbed env item).fields.get? 4 = some ⟨"Earnings Surprise %", "N/A", true⟩)
    ∧ (item.get ReportRecord.revenueSurprise = JVal.null ∨ item.get ReportRecord.revenueSurprise = JVal.undef →
      (formatEmbed env item).fields.get? 5 = some ⟨"Revenue Surprise %", "N/A", true⟩)
    ∧ (item.get ReportRecord.prevEarningsGrowth = JVal.null ∨ item.get ReportRecord.prevEarningsGrowth = JVal.undef →
      (formatEmbed env item).fields.get? 6 = some ⟨"Previous Earnings Growth", "N/A", true⟩)
    ∧ (item.get ReportRecord.prevRevenueGrowth = JVal.null ∨ item.get ReportRecord.prevRevenueGrowth = JVal.undef →
      (formatEmbed env item).fields.get? 7 = some ⟨"Previous Revenue Growth", "N/A", true⟩)
    ∧ (item.get ReportRecord.ewGrade = JVal.null ∨ item.get ReportRecord.ewGrade = JVal.undef →
      (formatEmbed env item).fields.get? 9 = some ⟨"Earnings Whispers Grade", "N/A", true⟩)
    ∧ (item.get ReportRecord.pwrRating = JVal.null ∨ item.get ReportRecord.pwrRating = JVal.undef →
      (formatEmbed env item).fields.get? 10 = some ⟨"Power Rating", "N/A", true⟩)
    ∧ (item.get ReportRecord.fileName = JVal.null ∨ item.get ReportRecord.fileName = JVal.undef →
      (formatEmbed env item).fields.get? 11 = some ⟨"Conference Call", "N/A", true⟩) := by
  refine ⟨?_, ?_, ?_, ?_, ?_, ?_, ?_, ?_, ?_⟩ <;>
    · rintro (h | h) <;> simp [formatEmbed, fmtMoney, jsOrStr, jsTruthyS, h, List.get?]

/-- C8 amended witness: on the all-null record every defaulted field
renders "N/A". -/
theorem c8_optional_na_witness :
    (formatEmbed env0 (FeedItem.record crec)).fields.get? 2 = some ⟨"Revenue", "N/A", true⟩
    ∧ (formatEmbed env0 (FeedItem.record crec)).fields.get? 11 = some ⟨"Conference Call", "N/A", true⟩ :=
  ⟨(c8_optional_na env0 (FeedItem.record crec)).1 (Or.inl rfl),
   (c8_optional_na env0 (FeedItem.record crec)).2.2.2.2.2.2.2.2 (Or.inl rfl)⟩

/-- C9 counterexample: the same record formatted at two different times
yields different payloads (the embed timestamp is the current time), so
formatting is not a pure function of the record alone. -/
theorem c9_counterexample :
    formatEmbed env0 (FeedItem.record crec) ≠ formatEmbed env1 (FeedItem.record crec) :=
  fun h => absurd (congrArg Embed.timestamp h) (by decide)

/-- C9 amended: the payload is a deterministic function of the record, the
current time and the locale/timezone rendering of the earnings date: two
invocations agreeing on those produce identical payloads. -/
theorem c9_env_determinism (item : FeedItem) (e1 e2 : Env)
    (hnow : e1.now = e2.now) (hloc : e1.dateLoc = e2.dateLoc) :
    formatEmbed e1 item = formatEmbed e2 item := by
  cases e1
  cases e2
  cases hnow
  cases hloc
  rfl

/-- C9 amended witness: two environment values built from the same time and
rendering give the same payload. -/
theorem c9_env_determinism_witness :
    formatEmbed env0 (FeedItem.record crec)
      = formatEmbed ⟨0, fun _ => "Invalid Date"⟩ (FeedItem.record crec) :=
  c9_env_determinism (FeedItem.record crec) env0 ⟨0, fun _ => "Invalid Date"⟩ rfl rfl

/-- An item whose key matches an entry of the state the loop starts from is
skipped at every position: it never reaches the loop body, for any starting
attempt counter. -/
theorem runLoop_skips_matched (sendOk : ℕ → Bool) (envAt : ℕ → Env) (r : FeedItem) :
    ∀ (items st : List FeedItem) (k : ℕ),
      (∃ e ∈ st, keyMatches e r = true) →
      r ∉ (runLoop sendOk envAt st items k).attempted := by
  intro items
  induction items with
  | nil => intro st k _; simp [runLoop]
  | cons i rest ih =>
    intro st k hex
    have hany : st.any (fun e => keyMatches e r) = true := by
      rcases hex with ⟨e, he, hk⟩
      simp only [List.any_eq_true]
      exact ⟨e, he, hk⟩
    by_cases hm : st.any (fun e => keyMatches e i) = true
    · rw [show runLoop sendOk envAt st (i :: rest) k = runLoop sendOk envAt st rest k from by
        simp [runLoop, hm]]
      exact ih st k hex
    · have hmf : st.any (fun e => keyMatches e i) = false := by
        simpa using hm
      have hir : i ≠ r := by
        intro h
        rw [h, hany] at hmf
        cases hmf
      cases hs : sendOk k with
      | true =>
        have hstep : (runLoop sendOk envAt st (i :: rest) k).attempted
            = i :: (runLoop sendOk envAt (st ++ [i]) rest (k + 1)).attempted := by
          simp [runLoop, hmf, hs]
        rw [hstep]
        intro hr
        rcases List.mem_cons.mp hr with h | h
        · exact hir h.symm
        · rcases hex with ⟨e, he, hk⟩
          exact ih (st ++ [i]) (k + 1) ⟨e, List.mem_append_left _ he, hk⟩ h
      | false =>
        have hstep : (runLoop sendOk envAt st (i :: rest) k).attempted = [i] := by
          simp [runLoop, hmf, hs]
        rw [hstep]
        intro hr
        exact hir (List.mem_singleton.mp hr).symm

/-- C1: a fetched record whose composite key (epsDate, ticker) matches, by
strict equality on both components, an entry of the loaded state is never
formatted and never sent: it does not reach the loop body. -/
theorem c1_dedup (sendOk : ℕ → Bool) (envAt : ℕ → Env)
    (state₀ items : List FeedItem) (r : FeedItem)
    (_hmem : r ∈ items) (hmatch : ∃ e ∈ state₀, keyMatches e r = true) :
    r ∉ (runLoop sendOk envAt state₀ items 0).attempted :=
  runLoop_skips_matched sendOk envAt r items state₀ 0 hmatch

/-- C1 witness: a fetched HCA record with the stored key but every other
field different is skipped. -/
theorem c1_dedup_witness :
    FeedItem.record recA2 ∉
      (runLoop sendOkW envAtW [FeedItem.record recA] [FeedItem.record recA2] 0).attempted :=
  c1_dedup sendOkW envAtW [FeedItem.record recA] [FeedItem.record recA2]
    (FeedItem.record recA2) (List.mem_singleton.mpr rfl)
    ⟨FeedItem.record recA, List.mem_singleton.mpr rfl, by decide⟩

/-- okRun counts exactly the sends before the first failing attempt. -/
theorem okRun_spec (sendOk : ℕ → Bool) :
    ∀ (n k m : ℕ), k ≤ m → (∀ j, k ≤ j → j < m → sendOk j = true) →
      sendOk m = false → m - k < n → okRun sendOk k n = m - k := by
  intro n
  induction n with
  | zero => intro k m h1 _ _ h4; omega
  | succ n ih =>
    intro k m hkm hok hf hlt
    by_cases hk : k = m
    · subst hk
      simp [okRun, hf]
    · have hklt : k < m := lt_of_le_of_ne hkm hk
      have hsk : sendOk k = true := hok k le_rfl hklt
      have hih : okRun sendOk (k + 1) n = m - (k + 1) :=
        ih (k + 1) m (by omega) (fun j hj1 hj2 => hok j (by omega) hj2) hf (by omega)
      simp [okRun, hsk, hih]
      omega

/-- The loop's final state is the starting state followed by the prefix of
the new items (those not key-matching the starting state) delivered before
the first send failure — provided keys are pairwise distinct within the
feed, the invariant the upstream guarantees. -/
theorem runLoop_finalState (sendOk : ℕ → Bool) (envAt : ℕ → Env) :
    ∀ (items st : List FeedItem) (k : ℕ),
      items.Pairwise (fun a b => keyMatches a b = false) →
      (runLoop sendOk envAt st items k).finalState
        = st ++ (newOf st items).take (okRun sendOk k (newOf st items).length) := by
  intro items
  induction items with
  | nil => intro st k _; simp [runLoop, newOf, okRun]
  | cons i rest ih =>
    intro st k hp
    rcases List.pairwise_cons.mp hp with ⟨hhead, htail⟩
    by_cases hm : st.any (fun e => keyMatches e i) = true
    · have h1 : runLoop sendOk envAt st (i :: rest) k = runLoop sendOk envAt st rest k := by
        simp [runLoop, hm]
      have h2 : newOf st (i :: rest) = newOf st rest := by
        simp [newOf, List.filter_cons, hm]
      rw [h1, h2]
      exact ih st k htail
    · have hmf : st.any (fun e => keyMatches e i) = false := by
        simpa using hm
      have h2 : newOf st (i :: rest) = i :: newOf st rest := by
        simp [newOf, List.filter_cons, hmf]
      cases hs : sendOk k with
      | false =>
        have h1 : (runLoop sendOk envAt st (i :: rest) k).finalState = st := by
          simp [runLoop, hmf, hs]
        rw [h1, h2]
        simp [okRun, hs]
      | true =>
        have h1 : (runLoop sendOk envAt st (i :: rest) k).finalState
            = (runLoop sendOk envAt (st ++ [i]) rest (k + 1)).finalState := by
          simp [runLoop, hmf, hs]
        have hstable : newOf (st ++ [i]) rest = newOf st rest := by
          apply List.filter_congr
          intro j hj
          have hij : keyMatches i j = false := hhead j hj
          simp [List.any_append, hij]
        rw [h1, ih (st ++ [i]) (k + 1) htail, hstable, h2]
        simp [okRun, hs, List.take_succ_cons, List.append_assoc]

/-- The trace of successful sends followed by one save persists exactly the
saved state. -/
theorem persisted_concat (es : List Embed) (st : List FeedItem) :
    persisted (es.map Event.send ++ [Event.save st]) = some st := by
  induction es with
  | nil => rfl
  | cons e es ih =>
    simp only [persisted, List.map_cons, List.cons_append, List.filterMap_cons] at ih ⊢
    simp only [saveOf]
    exact ih

/-- C2: when the Nth send of a run over an array body fails (the earlier
N-1 succeed), the persisted state is exactly the loaded state followed by
the first N-1 new items in feed order, and nothing later. -/
theorem c2_partial_failure (sendOk : ℕ → Bool) (envAt : ℕ → Env)
    (state₀ items : List FeedItem) (N : ℕ)
    (hpair : items.Pairwise (fun a b => keyMatches a b = false))
    (h1 : 1 ≤ N) (hN : N ≤ (newOf state₀ items).length)
    (hok : ∀ k, k < N - 1 → sendOk k = true) (hfail : sendOk (N - 1) = false) :
    persisted (main state₀ (FetchOutcome.ok (FeedData.arr items)) sendOk envAt)
      = some (state₀ ++ (newOf state₀ items).take (N - 1)) := by
  have hmain : main state₀ (FetchOutcome.ok (FeedData.arr items)) sendOk envAt
      = (runLoop sendOk envAt state₀ items 0).sentEmbeds.map Event.send
        ++ [Event.save (runLoop sendOk envAt state₀ items 0).finalState] := rfl
  have hrun : okRun sendOk 0 (newOf state₀ items).length = N - 1 := by
    have h := okRun_spec sendOk (newOf state₀ items).length 0 (N - 1)
      (by omega) (fun j hj1 hj2 => hok j hj2) hfail (by omega)
    simpa using h
  rw [hmain, persisted_concat, runLoop_finalState sendOk envAt items state₀ 0 hpair, hrun]

/-- C2 witness: with two fresh records and a send oracle failing on the
second attempt, exactly the first record is persisted after the loaded
state. -/
theorem c2_partial_failure_witness :
    persisted (main []
        (FetchOutcome.ok (FeedData.arr [FeedItem.record recA, FeedItem.record recB]))
        sendOkW envAtW)
      = some ([] ++ (newOf [] [FeedItem.record recA, FeedItem.record recB]).take (2 - 1)) := by
  apply c2_partial_failure sendOkW envAtW [] [FeedItem.record recA, FeedItem.record recB] 2
  · refine List.pairwise_cons.mpr ⟨?_, List.pairwise_singleton _ _⟩
    intro b hb
    rw [List.mem_singleton.mp hb]
    decide
  · decide
  · decide
  · intro k hk
    have hk0 : k = 0 := by omega
    rw [hk0]
    rfl
  · rfl

/-- A per-character payload carries no author name: item.name and
item.ticker are both undefined on a character, so the author-name fallback
is undefined too. The discord.js v14 builder validation throws on such a
payload and the webhook API rejects a nameless author, so no send of it
can succeed; in the oracle model that failure is a false send outcome at
that attempt. -/
theorem formatEmbed_chr_authorName (env : Env) (c : Char) :
    (formatEmbed env (FeedItem.chr c)).authorName = JVal.undef := rfl

/-- When the very first send attempt of a run fails, the loop delivers
nothing and leaves the state unchanged, whatever the items are: skipped
items do not advance the attempt counter, so the first item to reach the
loop body is attempt 0 and its failure ends the loop. -/
theorem runLoop_abort_first (sendOk : ℕ → Bool) (envAt : ℕ → Env)
    (hs : sendOk 0 = false) :
    ∀ (items st : List FeedItem),
      (runLoop sendOk envAt st items 0).finalState = st
      ∧ (runLoop sendOk envAt st items 0).sentEmbeds = [] := by
  intro items
  induction items with
  | nil => intro st; exact ⟨rfl, rfl⟩
  | cons i rest ih =>
    intro st
    by_cases hm : st.any (fun e => keyMatches e i) = true
    · rw [show runLoop sendOk envAt st (i :: rest) 0 = runLoop sendOk envAt st rest 0 from by
        simp [runLoop, hm]]
      exact ih st
    · have hmf : st.any (fun e => keyMatches e i) = false := by
        simpa using hm
      exact ⟨by simp [runLoop, hmf, hs], by simp [runLoop, hmf, hs]⟩

/-- C6: a response body that is not a JSON array yields no delivered
notification and leaves the loaded state persisted unchanged. A
non-iterable body (object, number, boolean, null) throws a TypeError in
for...of before any attempt. A string body is iterated character by
character, but every per-character payload has an undefined author name
(formatEmbed_chr_authorName) and no sink delivers such a payload — the
builder validation throws and the webhook API rejects it — which the
hypothesis hsink records about the send oracle; the resulting error lands
in the same catch as a fetch failure, so the delivery phase is aborted
with nothing sent and the finally block saves the loaded state as-is. -/
theorem c6_nonarray_aborts (state₀ : List FeedItem) (d : FeedData)
    (sendOk : ℕ → Bool) (envAt : ℕ → Env)
    (hnotarr : ∀ items, d ≠ FeedData.arr items)
    (hsink : ∀ k c, (formatEmbed (envAt k) (FeedItem.chr c)).authorName = JVal.undef →
      sendOk k = false) :
    main state₀ (FetchOutcome.ok d) sendOk envAt = [Event.save state₀] := by
  cases d with
  | arr items => exact absurd rfl (hnotarr items)
  | notIterable => rfl
  | str s =>
    have hs0 : sendOk 0 = false := hsink 0 'a' (formatEmbed_chr_authorName (envAt 0) 'a')
    have hrl := runLoop_abort_first sendOk envAt hs0 (s.toList.map FeedItem.chr) state₀
    show (runLoop sendOk envAt state₀ (s.toList.map FeedItem.chr) 0).sentEmbeds.map Event.send
        ++ [Event.save (runLoop sendOk envAt state₀ (s.toList.map FeedItem.chr) 0).finalState]
      = [Event.save state₀]
    rw [hrl.1, hrl.2]
    rfl

/-- C6 witness: a string body and a non-iterable body, under an oracle on
which no authorless payload is ever delivered, both leave the run with no
notification and the loaded state saved unchanged. -/
theorem c6_nonarray_aborts_witness :
    main [] (FetchOutcome.ok (FeedData.str "ab")) (fun _ => false) envAtW = [Event.save []]
    ∧ main [] (FetchOutcome.ok FeedData.notIterable) (fun _ => false) envAtW = [Event.save []] :=
  ⟨c6_nonarray_aborts [] (FeedData.str "ab") (fun _ => false) envAtW
      (fun _ h => FeedData.noConfusion h) (fun _ _ _ => rfl),
   c6_nonarray_aborts [] FeedData.notIterable (fun _ => false) envAtW
      (fun _ h => FeedData.noConfusion h) (fun _ _ _ => rfl)⟩

/-- Successful-send events are never save events. -/
theorem filter_isSave_sends (es : List Embed) :
    (es.map Event.send).filter Event.isSave = [] := by
  induction es with
  | nil => rfl
  | cons e es ih => simp [List.filter_cons, Event.isSave, ih]

/-- C7: every run past startup writes the state back exactly once, as the
last event of the run, on every path; and when the fetch fails the written
state is exactly the loaded state. -/
theorem c7_single_save (state₀ : List FeedItem) (fetch : FetchOutcome)
    (sendOk : ℕ → Bool) (envAt : ℕ → Env) :
    ((main state₀ fetch sendOk envAt).filter Event.isSave).length = 1
    ∧ (∃ st, (main state₀ fetch sendOk envAt).getLast? = some (Event.save st))
    ∧ (fetch = FetchOutcome.fail → main state₀ fetch sendOk envAt = [Event.save state₀]) := by
  cases fetch with
  | fail => exact ⟨rfl, ⟨state₀, rfl⟩, fun _ => rfl⟩
  | ok d =>
    refine ⟨?_, ?_, fun h => FetchOutcome.noConfusion h⟩
    · cases hd : iterateData d with
      | none => simp [main, hd, List.filter_cons, Event.isSave]
      | some items =>
        simp [main, hd, List.filter_append, filter_isSave_sends, List.filter_cons, Event.isSave]
    · cases hd : iterateData d with
      | none => exact ⟨state₀, by simp [main, hd]⟩
      | some items =>
        refine ⟨(runLoop sendOk envAt state₀ items 0).finalState, ?_⟩
        simp [main, hd, List.getLast?_concat]

/-- C7 witness: a failed fetch writes back exactly the loaded state, once,
at the end. -/
theorem c7_single_save_witness :
    ((main [] FetchOutcome.fail sendOkW envAtW).filter Event.isSave).length = 1
    ∧ (∃ st, (main [] FetchOutcome.fail sendOkW envAtW).getLast? = some (Event.save st))
    ∧ (FetchOutcome.fail = FetchOutcome.fail →
        main [] FetchOutcome.fail sendOkW envAtW = [Event.save []]) :=
  c7_single_save [] FetchOutcome.fail sendOkW envAtW

end Whispers
